import Mathlib

/-!
Shallow embedding of `src/app.service.ts` (AppService) of the
entei-kun backend: the DAM Precise Scoring total-score deriver, the
per-second prediction engine and the span-based counting engine.

Conventions of the embedding:
* Instants are epoch milliseconds as `Nat` (dayjs `valueOf()`); the ISO-8601
  strings produced by `toISOString()` are represented by that millisecond
  value, whose ordering agrees with the lexicographic order of the strings.
* JavaScript numbers are exact for the integer magnitudes reached here
  (below 2^53), so `Nat` arithmetic is faithful; `Math.floor(x / 1000)` on a
  non-negative integer is `Nat` division.
* Loops with mutable accumulators become `List.range` with
  `filterMap` / `map` / `foldl`.
-/

namespace AppService

/-- Randomize threshold (`damPreciseScoringTotalScoreRandomizeThreshold`). -/
def damPreciseScoringTotalScoreRandomizeThreshold : Nat := 99000

/-- 100.000 threshold (`damPreciseScoringTotalScore100PointsThreshold`). -/
def damPreciseScoringTotalScore100PointsThreshold : Nat := 99990

/-- 100.000 probability (`damPreciseScoringTotalScore100PointsProbability`). -/
def damPreciseScoringTotalScore100PointsProbability : Nat := 500

/-- Result record of the seeded generator (`rand_r` returns an object whose
`random` field is read by the service; `seed` is the updated state). -/
structure RandResult where
  random : Nat
  seed : Nat
deriving DecidableEq

/-- Modelled from the spec: the repository's `utilities/rand-r` module is not
under `src/`. Spec section 4.1 specifies that the Seeded Generator initializes
its 32-bit state from the seed and performs exactly one step of the linear
congruential generator historically used by C standard libraries — multiplier
1103515245, increment 12345, modulus 2^32 — returning the resulting value and
the next state (an unsigned 32-bit integer each). -/
def rand_r (seed : Nat) : RandResult :=
  let next : Nat := (seed * 1103515245 + 12345) % 4294967296
  { random := next, seed := next }

/-- The intermediate `randomValue = rand_r(time).random + time` of
`totalScoreByDamPreciseScoringFromTime`: plain JavaScript number addition
(exact, no wraparound at these magnitudes). -/
def randomValueFromTime (time : Nat) : Nat :=
  (rand_r time).random + time

/-- Spec-described variant of `randomValueFromTime`, for comparison with the
code: the spec states the sum `value + unixSeconds` wraps modulo the
generator's 32-bit width. -/
def randomValueWrappedFromTime (time : Nat) : Nat :=
  ((rand_r time).random + time) % 4294967296

/-- `AppService.totalScoreByDamPreciseScoringFromTime(time, rawScore = 99999)`.
The TypeScript default argument `rawScore = 99999` is passed explicitly by
this embedding at every call site that omits it. -/
def totalScoreByDamPreciseScoringFromTime (time : Nat) (rawScore : Nat) : Nat :=
  if damPreciseScoringTotalScoreRandomizeThreshold < rawScore then
    let randomValue := randomValueFromTime time
    let result :=
      randomValue % (rawScore - damPreciseScoringTotalScoreRandomizeThreshold) +
        damPreciseScoringTotalScoreRandomizeThreshold
    if damPreciseScoringTotalScore100PointsThreshold < result then
      if randomValue % 1000 < damPreciseScoringTotalScore100PointsProbability then
        100000
      else
        result
    else
      result
  else
    rawScore

/-- Spec-described variant of the score deriver whose intermediate sum wraps
modulo 2^32, for comparison with the code's exact-arithmetic version. -/
def totalScoreWrappedFromTime (time : Nat) (rawScore : Nat) : Nat :=
  if damPreciseScoringTotalScoreRandomizeThreshold < rawScore then
    let randomValue := randomValueWrappedFromTime time
    let result :=
      randomValue % (rawScore - damPreciseScoringTotalScoreRandomizeThreshold) +
        damPreciseScoringTotalScoreRandomizeThreshold
    if damPreciseScoringTotalScore100PointsThreshold < result then
      if randomValue % 1000 < damPreciseScoringTotalScore100PointsProbability then
        100000
      else
        result
    else
      result
  else
    rawScore

/-- `DamPreciseScoringTotalScoreType` (`types/dam-precise-scoring-total-score-type`). -/
inductive DamPreciseScoringTotalScoreType where
  | Normal
  | Quadruple
  | Hundred
deriving DecidableEq

/-- The inline score classification of `predictDamPreciseScoringTotalScore`
(lines 98-108 of `app.service.ts`), extracted as a named function. -/
def scoreTypeOfScore (score : Nat) : DamPreciseScoringTotalScoreType :=
  if score = 100000 then
    DamPreciseScoringTotalScoreType.Hundred
  else if damPreciseScoringTotalScore100PointsThreshold < score ∧ score ≠ 100000 then
    DamPreciseScoringTotalScoreType.Quadruple
  else
    DamPreciseScoringTotalScoreType.Normal

/-- Left-pad of the fractional part to three digits
(`scoreFractional.toString().padStart(3, "0")`), for `scoreFractional < 1000`. -/
def padFractional (n : Nat) : String :=
  (if n < 10 then "00" else if n < 100 then "0" else "") ++ toString n

/-- `DamPreciseScoringTotalScorePrediction` (`app.dto`): `time` is the epoch
millisecond value of the ISO string. -/
structure DamPreciseScoringTotalScorePrediction where
  time : Nat
  scoreInteger : Nat
  scoreString : String
  scoreType : DamPreciseScoringTotalScoreType
deriving DecidableEq

/-- The nine-hour JST shift (`add(9, "hour")`) in milliseconds. -/
def jstOffsetMs : Nat := 32400000

/-- One iteration of the per-second loop of
`predictDamPreciseScoringTotalScore`: derive, format and classify the score of
second `i` and emit a prediction record when its category passes the include
flags. -/
def predictBody (startMs : Nat) (isJst includeNormal includeQuadruple include100 : Bool)
    (i : Nat) : Option DamPreciseScoringTotalScorePrediction :=
  let timeMs := startMs + 1000 * i
  let unixtime := if isJst then (timeMs + jstOffsetMs) / 1000 else timeMs / 1000
  let score := totalScoreByDamPreciseScoringFromTime unixtime 99999
  let scoreInteger := score / 1000
  let scoreFractional := score % 1000
  let scoreString := toString scoreInteger ++ "." ++ padFractional scoreFractional
  let scoreType := scoreTypeOfScore score
  if (include100 && scoreType == DamPreciseScoringTotalScoreType.Hundred) ||
      (includeQuadruple && scoreType == DamPreciseScoringTotalScoreType.Quadruple) ||
      (includeNormal && scoreType == DamPreciseScoringTotalScoreType.Normal) then
    some { time := timeMs, scoreInteger := score, scoreString := scoreString,
           scoreType := scoreType }
  else
    none

/-- `AppService.predictDamPreciseScoringTotalScore(startTime, timeLimit, isJst,
includeNormal, includeQuadruple, include100)`. `startMs` is `startTime.valueOf()`
in milliseconds; the TypeScript defaults (`isJst = true` and all three include
flags `true`) are modelled by `predictDamPreciseScoringTotalScoreDefaults`. -/
def predictDamPreciseScoringTotalScore (startMs : Nat) (timeLimit : Nat)
    (isJst includeNormal includeQuadruple include100 : Bool) :
    List DamPreciseScoringTotalScorePrediction :=
  (List.range timeLimit).filterMap
    (predictBody startMs isJst includeNormal includeQuadruple include100)

/-- A call of `predictDamPreciseScoringTotalScore` that omits the four optional
TypeScript parameters: each then takes its declared default value
(`isJst = true`, `includeNormal = true`, `includeQuadruple = true`,
`include100 = true`). -/
def predictDamPreciseScoringTotalScoreDefaults (startMs : Nat) (timeLimit : Nat) :
    List DamPreciseScoringTotalScorePrediction :=
  predictDamPreciseScoringTotalScore startMs timeLimit true true true true

/-- One `hundredCount` / `quadrupleCount` pair of a count record. -/
structure CategoryCount where
  hundredCount : Nat
  quadrupleCount : Nat
deriving DecidableEq

/-- `DamPreciseScoringTotalScorePredictionCount` (`app.dto`): `startTime` and
`endTime` are the epoch millisecond values of the ISO strings. -/
structure DamPreciseScoringTotalScorePredictionCount where
  startTime : Nat
  endTime : Nat
  utc : CategoryCount
  jst : CategoryCount
deriving DecidableEq

/-- The four mutable per-span counters of
`countDamPreciseScoringTotalScorePrediction`. -/
structure DamSpanCounters where
  hundredCountUtc : Nat
  quadrupleCountUtc : Nat
  hundredCountJst : Nat
  quadrupleCountJst : Nat
deriving DecidableEq

/-- One iteration of the inner (per-second) loop of
`countDamPreciseScoringTotalScorePrediction`: derive and classify the UTC-seeded
and the JST-seeded score of second `j` of the span starting at `localStartMs`
and increment the matching counters. -/
def countStep (localStartMs : Nat) (c : DamSpanCounters) (j : Nat) : DamSpanCounters :=
  let timeUtcMs := localStartMs + 1000 * j
  let scoreUtc := totalScoreByDamPreciseScoringFromTime (timeUtcMs / 1000) 99999
  let c :=
    if scoreUtc = 100000 then
      { c with hundredCountUtc := c.hundredCountUtc + 1 }
    else if damPreciseScoringTotalScore100PointsThreshold < scoreUtc ∧ scoreUtc ≠ 100000 then
      { c with quadrupleCountUtc := c.quadrupleCountUtc + 1 }
    else
      c
  let scoreJst := totalScoreByDamPreciseScoringFromTime ((timeUtcMs + jstOffsetMs) / 1000) 99999
  if scoreJst = 100000 then
    { c with hundredCountJst := c.hundredCountJst + 1 }
  else if damPreciseScoringTotalScore100PointsThreshold < scoreJst ∧ scoreJst ≠ 100000 then
    { c with quadrupleCountJst := c.quadrupleCountJst + 1 }
  else
    c

/-- The `localTimeSpan` of span `i` of
`countDamPreciseScoringTotalScorePrediction`: the full `timeSpan` except on the
last span when `timeLimit % timeSpan` is non-zero (JavaScript truthiness of
`timeLimit % timeSpan` is the disequality with 0). -/
def localTimeSpanAt (timeSpan timeLimit i : Nat) : Nat :=
  let timeSpans := (timeLimit + timeSpan - 1) / timeSpan
  if i = timeSpans - 1 ∧ timeLimit % timeSpan ≠ 0 then timeLimit % timeSpan else timeSpan

/-- The count record emitted for span `i` of
`countDamPreciseScoringTotalScorePrediction`. -/
def countRecordAt (startMs timeSpan timeLimit i : Nat) :
    DamPreciseScoringTotalScorePredictionCount :=
  let localStartMs := startMs + 1000 * (i * timeSpan)
  let localTimeSpan := localTimeSpanAt timeSpan timeLimit i
  let c := (List.range localTimeSpan).foldl (countStep localStartMs) ⟨0, 0, 0, 0⟩
  { startTime := localStartMs
    endTime := localStartMs + 1000 * localTimeSpan
    utc := { hundredCount := c.hundredCountUtc, quadrupleCount := c.quadrupleCountUtc }
    jst := { hundredCount := c.hundredCountJst, quadrupleCount := c.quadrupleCountJst } }

/-- `AppService.countDamPreciseScoringTotalScorePrediction(startTime, timeSpan,
timeLimit)`. `startMs` is `startTime.valueOf()` in milliseconds.
`Math.ceil(timeLimit / timeSpan)` on positive integers is the ceiling division
`(timeLimit + timeSpan - 1) / timeSpan`. -/
def countDamPreciseScoringTotalScorePrediction (startMs : Nat) (timeSpan timeLimit : Nat) :
    List DamPreciseScoringTotalScorePredictionCount :=
  (List.range ((timeLimit + timeSpan - 1) / timeSpan)).map
    (countRecordAt startMs timeSpan timeLimit)

/-- Service-level error kinds recognized by the core (spec section 7). -/
inductive ServiceError where
  | InvalidWindow
deriving DecidableEq

/-- Modelled from the spec: the request-validation layer of this repository
(`app.dto` and the controller, which apply the declarative validation to the
query parameters) is not under `src/`. Spec section 7: invalid inputs
(`durationSeconds <= 0`) fail with an `InvalidWindow` error raised before any
iteration begins — no partial work is performed or returned. -/
def predictChecked (startMs : Nat) (timeLimit : Int)
    (isJst includeNormal includeQuadruple include100 : Bool) :
    Except ServiceError (List DamPreciseScoringTotalScorePrediction) :=
  if timeLimit ≤ 0 then
    Except.error ServiceError.InvalidWindow
  else
    Except.ok (predictDamPreciseScoringTotalScore startMs timeLimit.toNat
      isJst includeNormal includeQuadruple include100)

/-- Modelled from the spec: validation wrapper of the counting engine, as for
`predictChecked` — `durationSeconds <= 0` or `spanSeconds <= 0` fails with
`InvalidWindow` before any iteration begins. -/
def countChecked (startMs : Nat) (timeSpan timeLimit : Int) :
    Except ServiceError (List DamPreciseScoringTotalScorePredictionCount) :=
  if timeLimit ≤ 0 ∨ timeSpan ≤ 0 then
    Except.error ServiceError.InvalidWindow
  else
    Except.ok (countDamPreciseScoringTotalScorePrediction startMs timeSpan.toNat timeLimit.toNat)

/-- Whether the instant at epoch millisecond `ms` derives (with the default
baseline 99999) a score classified Hundred — the condition the counting loop
tests (`score === 100000`). -/
def hundredAt (ms : Nat) : Bool :=
  decide (totalScoreByDamPreciseScoringFromTime (ms / 1000) 99999 = 100000)

/-- Whether the instant at epoch millisecond `ms` derives (with the default
baseline 99999) a score classified Quadruple — the condition the counting loop
tests (`threshold < score && score !== 100000`). -/
def quadrupleAt (ms : Nat) : Bool :=
  decide (damPreciseScoringTotalScore100PointsThreshold <
      totalScoreByDamPreciseScoringFromTime (ms / 1000) 99999 ∧
    totalScoreByDamPreciseScoringFromTime (ms / 1000) 99999 ≠ 100000)

/-- Single-pass tally over the whole window: the number of seconds `t` of
`[0, duration)` whose UTC-seeded derived score classifies as Hundred, using
the same classification conditions the counting loop uses. -/
def hundredTallyUtc (startMs duration : Nat) : Nat :=
  (List.range duration).countP fun t => hundredAt (startMs + 1000 * t)

/-- Single-pass tally over the whole window of UTC-seeded Quadruple seconds. -/
def quadrupleTallyUtc (startMs duration : Nat) : Nat :=
  (List.range duration).countP fun t => quadrupleAt (startMs + 1000 * t)

/-- Single-pass tally over the whole window of JST-seeded Hundred seconds. -/
def hundredTallyJst (startMs duration : Nat) : Nat :=
  (List.range duration).countP fun t => hundredAt (startMs + 1000 * t + jstOffsetMs)

/-- Single-pass tally over the whole window of JST-seeded Quadruple seconds. -/
def quadrupleTallyJst (startMs duration : Nat) : Nat :=
  (List.range duration).countP fun t => quadrupleAt (startMs + 1000 * t + jstOffsetMs)

/-- Number of seconds `j` of `[0, n)` whose absolute second offset `a + j`
satisfies `P` — the per-span counting pattern. -/
def cntFrom (P : Nat → Bool) (a n : Nat) : Nat :=
  (List.range n).countP fun j => P (a + j)

/-- Whether a score category passes the include flags of a `predict` call. -/
def scoreTypeIncluded (includeNormal includeQuadruple include100 : Bool)
    (t : DamPreciseScoringTotalScoreType) : Bool :=
  match t with
  | DamPreciseScoringTotalScoreType.Normal => includeNormal
  | DamPreciseScoringTotalScoreType.Quadruple => includeQuadruple
  | DamPreciseScoringTotalScoreType.Hundred => include100

/-! Helper lemmas shared by the claim theorems. -/

lemma ceil_div_spec (a b : Nat) (hb : 0 < b) :
    (a + b - 1) / b = a / b + if a % b = 0 then 0 else 1 := by
  rcases Nat.eq_zero_or_pos a with rfl | ha
  · simp [Nat.div_eq_of_lt (by omega : b - 1 < b)]
  · have hsplit := Nat.div_add_mod a b
    have hmod : a % b < b := Nat.mod_lt _ hb
    by_cases hr : a % b = 0
    · have hdvd : b ∣ a := Nat.dvd_of_mod_eq_zero hr
      have hda : b * (a / b) = a := Nat.mul_div_cancel' hdvd
      have h1 : a + b - 1 = (b - 1) + b * (a / b) := by rw [hda]; omega
      rw [h1, Nat.add_mul_div_left _ _ hb, Nat.div_eq_of_lt (show b - 1 < b by omega)]
      simp [hr]
    · have h1 : a + b - 1 = (a % b - 1) + b * (a / b + 1) := by
        have : b * (a / b + 1) = b * (a / b) + b := by ring
        omega
      rw [h1, Nat.add_mul_div_left _ _ hb, Nat.div_eq_of_lt (show a % b - 1 < b by omega)]
      simp [hr]

lemma nat_eq_mod_iff_lt (a n : Nat) (hn : 0 < n) : a = a % n ↔ a < n := by
  constructor
  · intro h
    have := Nat.mod_lt a hn
    omega
  · intro h
    exact (Nat.mod_eq_of_lt h).symm

lemma predictBody_time {startMs : Nat} {isJst nf qf hf : Bool} {i : Nat}
    {r : DamPreciseScoringTotalScorePrediction}
    (h : predictBody startMs isJst nf qf hf i = some r) :
    r.time = startMs + 1000 * i := by
  simp only [predictBody, Option.ite_none_right_eq_some, Option.some.injEq] at h
  rw [← h.2]

lemma predictBody_score {startMs : Nat} {nf qf hf : Bool} {i : Nat}
    {r : DamPreciseScoringTotalScorePrediction}
    (h : predictBody startMs true nf qf hf i = some r) :
    r.scoreInteger =
      totalScoreByDamPreciseScoringFromTime ((startMs + 1000 * i + jstOffsetMs) / 1000) 99999 := by
  simp only [predictBody, Option.ite_none_right_eq_some, Option.some.injEq] at h
  rw [← h.2]
  simp

lemma predictBody_included {startMs : Nat} {isJst nf qf hf : Bool} {i : Nat}
    {r : DamPreciseScoringTotalScorePrediction}
    (h : predictBody startMs isJst nf qf hf i = some r) :
    scoreTypeIncluded nf qf hf r.scoreType = true := by
  simp only [predictBody, Option.ite_none_right_eq_some, Option.some.injEq] at h
  obtain ⟨hcond, hr⟩ := h
  rw [← hr]
  revert hcond
  cases scoreTypeOfScore
      (totalScoreByDamPreciseScoringFromTime
        (if isJst then (startMs + 1000 * i + jstOffsetMs) / 1000
          else (startMs + 1000 * i) / 1000) 99999) <;>
    simp [scoreTypeIncluded]

lemma countStep_hundredUtc (base : Nat) (c : DamSpanCounters) (j : Nat) :
    (countStep base c j).hundredCountUtc =
      c.hundredCountUtc + (if hundredAt (base + 1000 * j) then 1 else 0) := by
  simp only [countStep, hundredAt, decide_eq_true_eq]
  repeat' split
  all_goals simp_all

lemma countStep_quadrupleUtc (base : Nat) (c : DamSpanCounters) (j : Nat) :
    (countStep base c j).quadrupleCountUtc =
      c.quadrupleCountUtc + (if quadrupleAt (base + 1000 * j) then 1 else 0) := by
  simp only [countStep, quadrupleAt, decide_eq_true_eq]
  repeat' split
  all_goals simp_all

lemma countStep_hundredJst (base : Nat) (c : DamSpanCounters) (j : Nat) :
    (countStep base c j).hundredCountJst =
      c.hundredCountJst + (if hundredAt (base + 1000 * j + jstOffsetMs) then 1 else 0) := by
  simp only [countStep, hundredAt, decide_eq_true_eq]
  repeat' split
  all_goals simp_all

lemma countStep_quadrupleJst (base : Nat) (c : DamSpanCounters) (j : Nat) :
    (countStep base c j).quadrupleCountJst =
      c.quadrupleCountJst + (if quadrupleAt (base + 1000 * j + jstOffsetMs) then 1 else 0) := by
  simp only [countStep, quadrupleAt, decide_eq_true_eq]
  repeat' split
  all_goals simp_all

lemma foldl_countStep_hundredUtc (base : Nat) (l : List Nat) :
    ∀ c : DamSpanCounters, (l.foldl (countStep base) c).hundredCountUtc =
      c.hundredCountUtc + l.countP fun j => hundredAt (base + 1000 * j) := by
  induction l with
  | nil => intro c; simp
  | cons a l ih =>
    intro c
    rw [List.foldl_cons, ih, countStep_hundredUtc, List.countP_cons]
    omega

lemma foldl_countStep_quadrupleUtc (base : Nat) (l : List Nat) :
    ∀ c : DamSpanCounters, (l.foldl (countStep base) c).quadrupleCountUtc =
      c.quadrupleCountUtc + l.countP fun j => quadrupleAt (base + 1000 * j) := by
  induction l with
  | nil => intro c; simp
  | cons a l ih =>
    intro c
    rw [List.foldl_cons, ih, countStep_quadrupleUtc, List.countP_cons]
    omega

lemma foldl_countStep_hundredJst (base : Nat) (l : List Nat) :
    ∀ c : DamSpanCounters, (l.foldl (countStep base) c).hundredCountJst =
      c.hundredCountJst + l.countP fun j => hundredAt (base + 1000 * j + jstOffsetMs) := by
  induction l with
  | nil => intro c; simp
  | cons a l ih =>
    intro c
    rw [List.foldl_cons, ih, countStep_hundredJst, List.countP_cons]
    omega

lemma foldl_countStep_quadrupleJst (base : Nat) (l : List Nat) :
    ∀ c : DamSpanCounters, (l.foldl (countStep base) c).quadrupleCountJst =
      c.quadrupleCountJst + l.countP fun j => quadrupleAt (base + 1000 * j + jstOffsetMs) := by
  induction l with
  | nil => intro c; simp
  | cons a l ih =>
    intro c
    rw [List.foldl_cons, ih, countStep_quadrupleJst, List.countP_cons]
    omega

lemma cntFrom_zero_left (P : Nat → Bool) (n : Nat) :
    cntFrom P 0 n = (List.range n).countP P := by
  unfold cntFrom
  have h : (fun j => P (0 + j)) = P := funext fun j => by rw [Nat.zero_add]
  rw [h]

lemma cntFrom_add (P : Nat → Bool) (a m k : Nat) :
    cntFrom P a (m + k) = cntFrom P a m + cntFrom P (a + m) k := by
  unfold cntFrom
  rw [List.range_add, List.countP_append, List.countP_map]
  have h : ((fun j => P (a + j)) ∘ fun x => m + x) = fun j => P (a + m + j) := by
    funext j
    simp only [Function.comp]
    congr 1
    omega
  rw [h]

lemma countP_ext (p q : Nat → Bool) (l : List Nat) (h : ∀ x, p x = q x) :
    l.countP p = l.countP q := by
  rw [funext h]

lemma countRecordAt_startTime (s sp tl i : Nat) :
    (countRecordAt s sp tl i).startTime = s + 1000 * (i * sp) := rfl

lemma countRecordAt_endTime (s sp tl i : Nat) :
    (countRecordAt s sp tl i).endTime =
      s + 1000 * (i * sp) + 1000 * localTimeSpanAt sp tl i := rfl

lemma countRecordAt_utc_hundredCount (s sp tl i : Nat) :
    (countRecordAt s sp tl i).utc.hundredCount =
      cntFrom (fun t => hundredAt (s + 1000 * t)) (i * sp) (localTimeSpanAt sp tl i) := by
  simp only [countRecordAt]
  rw [foldl_countStep_hundredUtc]
  unfold cntFrom
  simp only [Nat.zero_add]
  apply countP_ext
  intro j
  show hundredAt (s + 1000 * (i * sp) + 1000 * j) = hundredAt (s + 1000 * (i * sp + j))
  congr 1
  ring

lemma countRecordAt_utc_quadrupleCount (s sp tl i : Nat) :
    (countRecordAt s sp tl i).utc.quadrupleCount =
      cntFrom (fun t => quadrupleAt (s + 1000 * t)) (i * sp) (localTimeSpanAt sp tl i) := by
  simp only [countRecordAt]
  rw [foldl_countStep_quadrupleUtc]
  unfold cntFrom
  simp only [Nat.zero_add]
  apply countP_ext
  intro j
  show quadrupleAt (s + 1000 * (i * sp) + 1000 * j) = quadrupleAt (s + 1000 * (i * sp + j))
  congr 1
  ring

lemma countRecordAt_jst_hundredCount (s sp tl i : Nat) :
    (countRecordAt s sp tl i).jst.hundredCount =
      cntFrom (fun t => hundredAt (s + 1000 * t + jstOffsetMs)) (i * sp)
        (localTimeSpanAt sp tl i) := by
  simp only [countRecordAt]
  rw [foldl_countStep_hundredJst]
  unfold cntFrom
  simp only [Nat.zero_add]
  apply countP_ext
  intro j
  show hundredAt (s + 1000 * (i * sp) + 1000 * j + jstOffsetMs) = hundredAt (s + 1000 * (i * sp + j) + jstOffsetMs)
  congr 1
  ring

lemma countRecordAt_jst_quadrupleCount (s sp tl i : Nat) :
    (countRecordAt s sp tl i).jst.quadrupleCount =
      cntFrom (fun t => quadrupleAt (s + 1000 * t + jstOffsetMs)) (i * sp)
        (localTimeSpanAt sp tl i) := by
  simp only [countRecordAt]
  rw [foldl_countStep_quadrupleJst]
  unfold cntFrom
  simp only [Nat.zero_add]
  apply countP_ext
  intro j
  show quadrupleAt (s + 1000 * (i * sp) + 1000 * j + jstOffsetMs) = quadrupleAt (s + 1000 * (i * sp + j) + jstOffsetMs)
  congr 1
  ring

lemma sum_cntFrom_spans (P : Nat → Bool) (sp : Nat) :
    ∀ q, ((List.range q).map fun i => cntFrom P (i * sp) sp).sum = cntFrom P 0 (q * sp) := by
  intro q
  induction q with
  | zero => simp [cntFrom]
  | succ q ih =>
    rw [List.range_succ, List.map_append, List.sum_append, ih]
    simp only [List.map_cons, List.map_nil, List.sum_cons, List.sum_nil, Nat.add_zero]
    rw [show (q + 1) * sp = q * sp + sp from by ring, cntFrom_add]
    simp

lemma localTimeSpanAt_of_lt (sp tl i : Nat) (hi : i < (tl + sp - 1) / sp - 1) :
    localTimeSpanAt sp tl i = sp := by
  unfold localTimeSpanAt
  rw [if_neg (fun h => absurd h.1 (by omega))]

lemma localTimeSpan_sum (sp tl : Nat) (hsp : 0 < sp) (htl : 0 < tl) :
    ((tl + sp - 1) / sp - 1) * sp +
      localTimeSpanAt sp tl ((tl + sp - 1) / sp - 1) = tl := by
  have hm := ceil_div_spec tl sp hsp
  unfold localTimeSpanAt
  by_cases hr : tl % sp = 0
  · rw [if_neg (by simp [hr])]
    have hdvd : sp ∣ tl := Nat.dvd_of_mod_eq_zero hr
    have hda : tl / sp * sp = tl := Nat.div_mul_cancel hdvd
    have hsl : sp ≤ tl := Nat.le_of_dvd htl hdvd
    rw [hm]
    simp only [hr, if_pos, Nat.add_zero]
    rw [Nat.sub_one_mul]
    omega
  · rw [if_pos ⟨rfl, hr⟩, hm]
    simp only [hr, if_neg, Nat.add_sub_cancel]
    exact Nat.div_add_mod' tl sp

lemma count_sum_spans (P : Nat → Bool) (sp tl : Nat) (hsp : 0 < sp) (htl : 0 < tl) :
    ((List.range ((tl + sp - 1) / sp)).map
        fun i => cntFrom P (i * sp) (localTimeSpanAt sp tl i)).sum =
      (List.range tl).countP P := by
  have hm1 : 0 < (tl + sp - 1) / sp := by
    rw [ceil_div_spec tl sp hsp]
    by_cases hr : tl % sp = 0
    · simp only [hr, if_pos, Nat.add_zero]
      exact Nat.div_pos (Nat.le_of_dvd htl (Nat.dvd_of_mod_eq_zero hr)) hsp
    · simp [hr]
  obtain ⟨q, hq⟩ : ∃ q, (tl + sp - 1) / sp = q + 1 :=
    ⟨(tl + sp - 1) / sp - 1, by omega⟩
  rw [hq, List.range_succ, List.map_append, List.sum_append]
  have hpre : ((List.range q).map fun i => cntFrom P (i * sp) (localTimeSpanAt sp tl i)) =
      (List.range q).map fun i => cntFrom P (i * sp) sp := by
    apply List.map_congr_left
    intro i hi
    rw [List.mem_range] at hi
    rw [localTimeSpanAt_of_lt sp tl i (by omega)]
  rw [hpre, sum_cntFrom_spans]
  simp only [List.map_cons, List.map_nil, List.sum_cons, List.sum_nil, Nat.add_zero]
  rw [← cntFrom_zero_left]
  have hkey := localTimeSpan_sum sp tl hsp htl
  rw [hq] at hkey
  simp only [Nat.add_sub_cancel] at hkey
  conv_rhs => rw [← hkey]
  rw [cntFrom_add]
  simp

/-! Claim theorems. -/

/-- C1: For every seed `time` and every `rawScore` strictly greater than 99000,
the score returned by `totalScoreByDamPreciseScoringFromTime` lies in
`[99000, rawScore - 1] ∪ {100000}`. -/
theorem claim1_score_deriver_range (time rawScore : Nat) (h : 99000 < rawScore) :
    (99000 ≤ totalScoreByDamPreciseScoringFromTime time rawScore ∧
      totalScoreByDamPreciseScoringFromTime time rawScore ≤ rawScore - 1) ∨
    totalScoreByDamPreciseScoringFromTime time rawScore = 100000 := by
  have hm : randomValueFromTime time % (rawScore - 99000) < rawScore - 99000 :=
    Nat.mod_lt _ (by omega)
  simp only [totalScoreByDamPreciseScoringFromTime,
    damPreciseScoringTotalScoreRandomizeThreshold,
    damPreciseScoringTotalScore100PointsThreshold,
    damPreciseScoringTotalScore100PointsProbability, h, if_true]
  split
  · split
    · right
      rfl
    · left
      omega
  · left
    omega

/-- C1 witness: at seed 0 and rawScore 99999 the hypothesis holds and the
derived score lies in the stated set. -/
theorem claim1_score_deriver_range_witness :
    99000 < 99999 ∧
      ((99000 ≤ totalScoreByDamPreciseScoringFromTime 0 99999 ∧
        totalScoreByDamPreciseScoringFromTime 0 99999 ≤ 99999 - 1) ∨
      totalScoreByDamPreciseScoringFromTime 0 99999 = 100000) :=
  ⟨by decide, claim1_score_deriver_range 0 99999 (by decide)⟩

/-- C2 counterexample: at seed 2^32 the code's intermediate
`randomValue = rand_r(time).random + time` (exact JavaScript number addition)
differs from the 32-bit-wrapped sum the claim describes, and the derived score
differs as well, so the sum is not computed with wraparound arithmetic. -/
theorem claim2_wrap_counterexample :
    randomValueFromTime 4294967296 ≠ randomValueWrappedFromTime 4294967296 ∧
    totalScoreByDamPreciseScoringFromTime 4294967296 99999 ≠
      totalScoreWrappedFromTime 4294967296 99999 := by
  constructor
  · decide
  · decide

/-- C2 amended: the intermediate `randomValue = generatorValue + unixSeconds`
is computed in exact (unbounded) integer arithmetic with no 32-bit wrap; it
coincides with the 32-bit-wrapped sum exactly when the sum is below 2^32. -/
theorem claim2_random_value_exact (time : Nat) :
    randomValueFromTime time = randomValueWrappedFromTime time ↔
      randomValueFromTime time < 4294967296 := by
  unfold randomValueWrappedFromTime randomValueFromTime
  constructor
  · intro h
    have hlt := Nat.mod_lt ((rand_r time).random + time)
      (show 0 < 4294967296 by decide)
    omega
  · intro h
    exact (Nat.mod_eq_of_lt h).symm

/-- C3: for every seed and every rawScore at or below the randomize threshold
99000, the score deriver returns rawScore unchanged. -/
theorem claim3_threshold_passthrough (time rawScore : Nat) (h : rawScore ≤ 99000) :
    totalScoreByDamPreciseScoringFromTime time rawScore = rawScore := by
  have hc : ¬ damPreciseScoringTotalScoreRandomizeThreshold < rawScore := by
    unfold damPreciseScoringTotalScoreRandomizeThreshold
    omega
  simp only [totalScoreByDamPreciseScoringFromTime, if_neg hc]

/-- C3 witness: at seed 7 and rawScore 500 the hypothesis holds and the score
passes through unchanged. -/
theorem claim3_threshold_passthrough_witness :
    500 ≤ 99000 ∧ totalScoreByDamPreciseScoringFromTime 7 500 = 500 :=
  ⟨by decide, claim3_threshold_passthrough 7 500 (by decide)⟩

/-- C4: every call of the checked prediction operation with
`durationSeconds <= 0`, and every call of the checked counting operation with
`durationSeconds <= 0` or `spanSeconds <= 0`, fails with the `InvalidWindow`
error before any per-second iteration, producing no partial result. -/
theorem claim4_invalid_window (startMs : Nat) (timeSpan timeLimit : Int)
    (isJst includeNormal includeQuadruple include100 : Bool) :
    (timeLimit ≤ 0 →
      predictChecked startMs timeLimit isJst includeNormal includeQuadruple include100 =
        Except.error ServiceError.InvalidWindow) ∧
    (timeLimit ≤ 0 ∨ timeSpan ≤ 0 →
      countChecked startMs timeSpan timeLimit = Except.error ServiceError.InvalidWindow) := by
  constructor
  · intro h
    rw [predictChecked, if_pos h]
  · intro h
    rw [countChecked, if_pos h]

/-- C4 witness: duration 0 is rejected by both checked operations. -/
theorem claim4_invalid_window_witness :
    ((0 : Int) ≤ 0 ∧
      predictChecked 0 0 true true true true = Except.error ServiceError.InvalidWindow) ∧
    (((0 : Int) ≤ 0 ∨ (5 : Int) ≤ 0) ∧
      countChecked 0 5 0 = Except.error ServiceError.InvalidWindow) :=
  ⟨⟨by decide, (claim4_invalid_window 0 5 0 true true true true).1 (by decide)⟩,
   ⟨Or.inl (by decide), (claim4_invalid_window 0 5 0 true true true true).2
      (Or.inl (by decide))⟩⟩

/-- C9: the score classifier is total on `[0, 100000]` and its three branches
are mutually exclusive and exhaustive: Hundred exactly at 100000, Quadruple
exactly on `(99990, 100000)`, Normal exactly on `[0, 99990]`. -/
theorem claim9_classifier_branches (score : Nat) (h : score ≤ 100000) :
    (scoreTypeOfScore score = DamPreciseScoringTotalScoreType.Hundred ↔ score = 100000) ∧
    (scoreTypeOfScore score = DamPreciseScoringTotalScoreType.Quadruple ↔
      99990 < score ∧ score < 100000) ∧
    (scoreTypeOfScore score = DamPreciseScoringTotalScoreType.Normal ↔ score ≤ 99990) := by
  by_cases h1 : score = 100000 <;> by_cases h2 : 99990 < score <;>
    (simp only [scoreTypeOfScore, damPreciseScoringTotalScore100PointsThreshold,
      h1, h2]; simp_all; try omega)

/-- C9 witness: 99995 is in range and classifies per the three equivalences. -/
theorem claim9_classifier_branches_witness :
    99995 ≤ 100000 ∧
      ((scoreTypeOfScore 99995 = DamPreciseScoringTotalScoreType.Hundred ↔ 99995 = 100000) ∧
      (scoreTypeOfScore 99995 = DamPreciseScoringTotalScoreType.Quadruple ↔
        99990 < 99995 ∧ 99995 < 100000) ∧
      (scoreTypeOfScore 99995 = DamPreciseScoringTotalScoreType.Normal ↔ 99995 ≤ 99990)) :=
  ⟨by decide, claim9_classifier_branches 99995 (by decide)⟩

/-- C10: a call of `predict` that omits the optional flags behaves exactly as
the call with `useJstOffset`, `includeNormal`, `includeQuadruple` and
`includeHundred` all explicitly true (so seeding is JST-shifted by default and
no category is filtered); in particular the defaulted call differs from the
`useJstOffset = false` call on the spec's one-second scenario instant
2022-01-01T00:00:00Z, which therefore requires passing false explicitly. -/
theorem claim10_defaults (startMs timeLimit : Nat) :
    predictDamPreciseScoringTotalScoreDefaults startMs timeLimit =
      predictDamPreciseScoringTotalScore startMs timeLimit true true true true ∧
    predictDamPreciseScoringTotalScoreDefaults 1640995200000 1 ≠
      predictDamPreciseScoringTotalScore 1640995200000 1 false true true true :=
  ⟨rfl, by decide⟩

/-- C5: the prediction list has length at most `timeLimit`, is strictly
ascending in its `time` field, and every emitted record's category has its
include flag set. -/
theorem claim5_predict_shape (startMs timeLimit : Nat)
    (isJst includeNormal includeQuadruple include100 : Bool) :
    (predictDamPreciseScoringTotalScore startMs timeLimit
        isJst includeNormal includeQuadruple include100).length ≤ timeLimit ∧
    List.Pairwise (fun a b => a.time < b.time)
      (predictDamPreciseScoringTotalScore startMs timeLimit
        isJst includeNormal includeQuadruple include100) ∧
    (predictDamPreciseScoringTotalScore startMs timeLimit
        isJst includeNormal includeQuadruple include100).all
      (fun r => scoreTypeIncluded includeNormal includeQuadruple include100 r.scoreType) =
        true := by
  refine ⟨?_, ?_, ?_⟩
  · calc (predictDamPreciseScoringTotalScore startMs timeLimit
          isJst includeNormal includeQuadruple include100).length
        ≤ (List.range timeLimit).length := List.length_filterMap_le _ _
      _ = timeLimit := List.length_range timeLimit
  · unfold predictDamPreciseScoringTotalScore
    refine List.Pairwise.filterMap _ ?_ (List.pairwise_lt_range timeLimit)
    intro a b hab x hx y hy
    rw [Option.mem_def] at hx hy
    have hxa := predictBody_time hx
    have hyb := predictBody_time hy
    omega
  · rw [List.all_eq_true]
    intro r hr
    unfold predictDamPreciseScoringTotalScore at hr
    rw [List.mem_filterMap] at hr
    obtain ⟨i, hi, hbody⟩ := hr
    exact predictBody_included hbody

/-- C8: with `useJstOffset = true`, every emitted record's `time` field is the
caller's original instant `startMs + 1000 * i` (not the JST-shifted one), while
its score is derived from the JST-shifted seed. -/
theorem claim8_reported_time_unshifted (startMs timeLimit : Nat) (nf qf hf : Bool)
    (r : DamPreciseScoringTotalScorePrediction)
    (hr : r ∈ predictDamPreciseScoringTotalScore startMs timeLimit true nf qf hf) :
    ∃ i, i < timeLimit ∧ r.time = startMs + 1000 * i ∧
      r.scoreInteger =
        totalScoreByDamPreciseScoringFromTime
          ((startMs + 1000 * i + jstOffsetMs) / 1000) 99999 := by
  unfold predictDamPreciseScoringTotalScore at hr
  rw [List.mem_filterMap] at hr
  obtain ⟨i, hi, hbody⟩ := hr
  exact ⟨i, List.mem_range.mp hi, predictBody_time hbody, predictBody_score hbody⟩

/-- C8 witness: the single record of the one-second JST-seeded run at epoch 0
carries the unshifted time 0 and the JST-seeded score. -/
theorem claim8_reported_time_unshifted_witness :
    (⟨0, 99640, "99.640", DamPreciseScoringTotalScoreType.Normal⟩ :
        DamPreciseScoringTotalScorePrediction) ∈
      predictDamPreciseScoringTotalScore 0 1 true true true true ∧
    ∃ i, i < 1 ∧
      (⟨0, 99640, "99.640", DamPreciseScoringTotalScoreType.Normal⟩ :
        DamPreciseScoringTotalScorePrediction).time = 0 + 1000 * i ∧
      (⟨0, 99640, "99.640", DamPreciseScoringTotalScoreType.Normal⟩ :
        DamPreciseScoringTotalScorePrediction).scoreInteger =
        totalScoreByDamPreciseScoringFromTime
          ((0 + 1000 * i + jstOffsetMs) / 1000) 99999 :=
  ⟨by decide, claim8_reported_time_unshifted 0 1 true true true _ (by decide)⟩

lemma ceil_div_pos (sp tl : Nat) (hsp : 0 < sp) (htl : 0 < tl) :
    0 < (tl + sp - 1) / sp := by
  rw [ceil_div_spec tl sp hsp]
  by_cases hr : tl % sp = 0
  · simp only [hr, if_pos, Nat.add_zero]
    exact Nat.div_pos (Nat.le_of_dvd htl (Nat.dvd_of_mod_eq_zero hr)) hsp
  · simp [hr]

/-- C6: for positive span and duration the counting engine returns exactly
`ceil(timeLimit / timeSpan)` records; each span is `timeSpan` seconds long
except the final one, which is `timeLimit % timeSpan` whenever that remainder
is non-zero; consecutive records are chronological with contiguous bounds; and
with span 10 and duration 25 it returns the three spans of lengths 10, 10, 5
with contiguous bounds. -/
theorem claim6_count_partition (startMs timeSpan timeLimit : Nat)
    (hsp : 0 < timeSpan) (htl : 0 < timeLimit) :
    (countDamPreciseScoringTotalScorePrediction startMs timeSpan timeLimit).length =
      timeLimit / timeSpan + (if timeLimit % timeSpan = 0 then 0 else 1) ∧
    ((countDamPreciseScoringTotalScorePrediction startMs timeSpan timeLimit).map
        fun r => r.endTime - r.startTime) =
      (List.range ((timeLimit + timeSpan - 1) / timeSpan)).map
        (fun k => 1000 * (if k = (timeLimit + timeSpan - 1) / timeSpan - 1 ∧
            timeLimit % timeSpan ≠ 0 then timeLimit % timeSpan else timeSpan)) ∧
    List.Chain' (fun a b => a.startTime < b.startTime ∧ b.startTime = a.endTime)
      (countDamPreciseScoringTotalScorePrediction startMs timeSpan timeLimit) ∧
    ((countDamPreciseScoringTotalScorePrediction startMs 10 25).map
        fun r => (r.startTime, r.endTime)) =
      [(startMs, startMs + 10000), (startMs + 10000, startMs + 20000),
       (startMs + 20000, startMs + 25000)] := by
  refine ⟨?_, ?_, ?_, ?_⟩
  · unfold countDamPreciseScoringTotalScorePrediction
    rw [List.length_map, List.length_range]
    exact ceil_div_spec timeLimit timeSpan hsp
  · unfold countDamPreciseScoringTotalScorePrediction
    rw [List.map_map]
    apply List.map_congr_left
    intro k hk
    show (countRecordAt startMs timeSpan timeLimit k).endTime -
        (countRecordAt startMs timeSpan timeLimit k).startTime = _
    rw [countRecordAt_endTime, countRecordAt_startTime, Nat.add_sub_cancel_left]
    rfl
  · unfold countDamPreciseScoringTotalScorePrediction
    rw [List.chain'_map]
    have hm1 := ceil_div_pos timeSpan timeLimit hsp htl
    obtain ⟨q, hq⟩ : ∃ q, (timeLimit + timeSpan - 1) / timeSpan = q + 1 :=
      ⟨(timeLimit + timeSpan - 1) / timeSpan - 1, by omega⟩
    rw [hq, show q + 1 = Nat.succ q from rfl, List.chain'_range_succ]
    intro k hk
    simp only [Nat.succ_eq_add_one]
    have hmul : (k + 1) * timeSpan = k * timeSpan + timeSpan := by ring
    constructor
    · rw [countRecordAt_startTime, countRecordAt_startTime]
      omega
    · rw [countRecordAt_startTime, countRecordAt_endTime,
        localTimeSpanAt_of_lt timeSpan timeLimit k (by omega)]
      omega
  · unfold countDamPreciseScoringTotalScorePrediction
    rw [show List.range ((25 + 10 - 1) / 10) = [0, 1, 2] from by decide]
    simp only [List.map_cons, List.map_nil, countRecordAt_startTime, countRecordAt_endTime]
    norm_num [localTimeSpanAt]

/-- C6 witness: the instantiation at start 0, span 10, duration 25. -/
theorem claim6_count_partition_witness :
    (0 < 10 ∧ 0 < 25) ∧
    ((countDamPreciseScoringTotalScorePrediction 0 10 25).length =
      25 / 10 + (if 25 % 10 = 0 then 0 else 1) ∧
    ((countDamPreciseScoringTotalScorePrediction 0 10 25).map
        fun r => r.endTime - r.startTime) =
      (List.range ((25 + 10 - 1) / 10)).map
        (fun k => 1000 * (if k = (25 + 10 - 1) / 10 - 1 ∧ 25 % 10 ≠ 0
            then 25 % 10 else 10)) ∧
    List.Chain' (fun a b => a.startTime < b.startTime ∧ b.startTime = a.endTime)
      (countDamPreciseScoringTotalScorePrediction 0 10 25) ∧
    ((countDamPreciseScoringTotalScorePrediction 0 10 25).map
        fun r => (r.startTime, r.endTime)) =
      [(0, 0 + 10000), (0 + 10000, 0 + 20000), (0 + 20000, 0 + 25000)]) :=
  ⟨⟨by decide, by decide⟩, claim6_count_partition 0 10 25 (by decide) (by decide)⟩

/-- C7: for every valid input the per-span counters sum, over all returned
records, to the single-pass tally over the whole window, for each of the four
counters (utc/jst x hundred/quadruple). -/
theorem claim7_count_sums (startMs timeSpan timeLimit : Nat)
    (hsp : 0 < timeSpan) (htl : 0 < timeLimit) :
    ((countDamPreciseScoringTotalScorePrediction startMs timeSpan timeLimit).map
        fun r => r.utc.hundredCount).sum = hundredTallyUtc startMs timeLimit ∧
    ((countDamPreciseScoringTotalScorePrediction startMs timeSpan timeLimit).map
        fun r => r.utc.quadrupleCount).sum = quadrupleTallyUtc startMs timeLimit ∧
    ((countDamPreciseScoringTotalScorePrediction startMs timeSpan timeLimit).map
        fun r => r.jst.hundredCount).sum = hundredTallyJst startMs timeLimit ∧
    ((countDamPreciseScoringTotalScorePrediction startMs timeSpan timeLimit).map
        fun r => r.jst.quadrupleCount).sum = quadrupleTallyJst startMs timeLimit := by
  refine ⟨?_, ?_, ?_, ?_⟩
  · unfold countDamPreciseScoringTotalScorePrediction hundredTallyUtc
    rw [List.map_map]
    have h : ((fun r => r.utc.hundredCount) ∘ countRecordAt startMs timeSpan timeLimit) =
        fun i => cntFrom (fun t => hundredAt (startMs + 1000 * t)) (i * timeSpan)
          (localTimeSpanAt timeSpan timeLimit i) := by
      funext i
      exact countRecordAt_utc_hundredCount startMs timeSpan timeLimit i
    rw [h]
    exact count_sum_spans _ timeSpan timeLimit hsp htl
  · unfold countDamPreciseScoringTotalScorePrediction quadrupleTallyUtc
    rw [List.map_map]
    have h : ((fun r => r.utc.quadrupleCount) ∘ countRecordAt startMs timeSpan timeLimit) =
        fun i => cntFrom (fun t => quadrupleAt (startMs + 1000 * t)) (i * timeSpan)
          (localTimeSpanAt timeSpan timeLimit i) := by
      funext i
      exact countRecordAt_utc_quadrupleCount startMs timeSpan timeLimit i
    rw [h]
    exact count_sum_spans _ timeSpan timeLimit hsp htl
  · unfold countDamPreciseScoringTotalScorePrediction hundredTallyJst
    rw [List.map_map]
    have h : ((fun r => r.jst.hundredCount) ∘ countRecordAt startMs timeSpan timeLimit) =
        fun i => cntFrom (fun t => hundredAt (startMs + 1000 * t + jstOffsetMs)) (i * timeSpan)
          (localTimeSpanAt timeSpan timeLimit i) := by
      funext i
      exact countRecordAt_jst_hundredCount startMs timeSpan timeLimit i
    rw [h]
    exact count_sum_spans _ timeSpan timeLimit hsp htl
  · unfold countDamPreciseScoringTotalScorePrediction quadrupleTallyJst
    rw [List.map_map]
    have h : ((fun r => r.jst.quadrupleCount) ∘ countRecordAt startMs timeSpan timeLimit) =
        fun i => cntFrom (fun t => quadrupleAt (startMs + 1000 * t + jstOffsetMs)) (i * timeSpan)
          (localTimeSpanAt timeSpan timeLimit i) := by
      funext i
      exact countRecordAt_jst_quadrupleCount startMs timeSpan timeLimit i
    rw [h]
    exact count_sum_spans _ timeSpan timeLimit hsp htl

/-- C7 witness: the instantiation at start 0, span 10, duration 25. -/
theorem claim7_count_sums_witness :
    (0 < 10 ∧ 0 < 25) ∧
    (((countDamPreciseScoringTotalScorePrediction 0 10 25).map
        fun r => r.utc.hundredCount).sum = hundredTallyUtc 0 25 ∧
    ((countDamPreciseScoringTotalScorePrediction 0 10 25).map
        fun r => r.utc.quadrupleCount).sum = quadrupleTallyUtc 0 25 ∧
    ((countDamPreciseScoringTotalScorePrediction 0 10 25).map
        fun r => r.jst.hundredCount).sum = hundredTallyJst 0 25 ∧
    ((countDamPreciseScoringTotalScorePrediction 0 10 25).map
        fun r => r.jst.quadrupleCount).sum = quadrupleTallyJst 0 25) :=
  ⟨⟨by decide, by decide⟩, claim7_count_sums 0 10 25 (by decide) (by decide)⟩

end AppService
